import Mathlib

/-!
# pg_timetable: connection bootstrap and client-name lock

Shallow embedding of `internal/pgengine/bootstrap.go`.

* Go package variables (`ConfigDb`, `ClientName`, `NoShellTasks`, `VerboseLogLevel`,
  `bootstraping`) are the fields of `State`; every function takes the state and returns
  the new one.
* Everything the code asks of its environment (the database, the driver, the clock, the
  cancellation context, the file system) is answered from a `World`: for each kind of
  external call a list of answers, consumed in call order.  A function returns `none`
  only when the list it needs is exhausted, i.e. when the environment gives no answer.
* Every external call made by the code of this file is recorded, in order and with its
  result, in a list of `Event`s.
* The driver runs the `AfterConnect` hook inside the pool operation that opens a new
  physical connection; the result of a pool operation (`PingContext`, `GetContext`,
  `DB.Conn`, `Exec`) is an answer of the `World`, and the hook is the function
  `AfterConnect` below.
* Go panics (nil dereference, index out of range) are the outcome `Outcome.panic`.
* `LogToDB`, `fmt.Printf`, `GetLogPrefix` and `GetLogPrefixLn` are the logging sink; they
  are defined outside this file, return nothing the control flow reads, and are left out.
* The locking procedure `timetable.try_lock_client_name` and the table
  `timetable.active_session` are created by the DDL script, outside this file; the
  section on the locking procedure models them from the specification.
* The four schema scripts `sqlDDL`, `sqlJSONSchema`, `sqlTasks`, `sqlJobFunctions` are
  constants defined outside this file; they are a parameter (`Scripts`).
-/

namespace Pgengine

/-! ## Values -/

/-- A non-nil Go `error` value. -/
inductive Err where
  | canceled
  | deadlineExceeded
  | other (msg : String)
  deriving DecidableEq, Repr

/-- A Go `error`: `none` is `nil`. -/
abbrev GoError := Option Err

/-- Result of a Go function that may panic. -/
inductive Outcome (α : Type) where
  | ret (a : α)
  | panic
  deriving DecidableEq, Repr

/-- The two branches of `select { case <-time.After(d): ... case <-ctx.Done(): ... }`:
the timer fired, or the context was done, in which case `ctx.Err()` is the non-nil `e`. -/
inductive WaitOutcome where
  | timer
  | done (e : Err)
  deriving DecidableEq, Repr

/-- A `pgconn.Result`; only `Rows [][][]byte` is read. -/
structure Result where
  Rows : List (List (List Nat))
  deriving DecidableEq, Repr

/-- Answer of the server to one command sent on a physical connection: what
`MultiResultReader.ReadAll` returns (`Close` and `pgx.Conn.Exec` only read `err`). -/
structure Reply where
  results : List Result
  err : GoError
  deriving DecidableEq, Repr

/-- A bind argument of a pooled statement. -/
inductive Arg where
  | int (n : Nat)
  | str (s : String)
  deriving DecidableEq, Repr

/-- External calls, in the order the code makes them, each with its result. -/
inductive Event where
  | parseConfig (connstr : String) (err : GoError)
  | openDB (driverName : String) (err : GoError)
  | ping (err : GoError)
  | wait (secs : Nat) (o : WaitOutcome)
  | poolQuery (sql : String) (value : Bool) (err : GoError)
  | poolConn (err : GoError)
  | connExec (sql : String) (err : GoError)
  | poolExec (sql : String) (args : List Arg) (err : GoError)
  | poolClose (err : GoError)
  | readFile (name : String) (err : GoError)
  | fixSchedulerCrash
  deriving DecidableEq, Repr

/-- The handle `*sqlx.DB` built by `sqlx.NewDb(db, driverName)`. -/
structure DB where
  driverName : String
  deriving DecidableEq, Repr

/-- The fields of `pgx.ConnConfig` that `InitAndTestConfigDBConnection` sets. -/
structure ConnConfig where
  OnNotice : Bool
  AfterConnect : Bool
  OnNotification : Bool
  LogLevelDebug : Bool
  PreferSimpleProtocol : Bool
  deriving DecidableEq, Repr

/-- The fields of `cmdparser.CmdOptions` read in this file. -/
structure CmdOptions where
  ClientName : String
  NoShellTasks : Bool
  Verbose : Bool
  Debug : Bool
  File : String
  Host : String
  Port : String
  Dbname : String
  SSLMode : String
  User : String
  Password : String
  deriving DecidableEq, Repr

/-- Package-level variables, and the connection configuration handed to the driver by
`stdlib.RegisterConnConfig`. -/
structure State where
  ConfigDb : Option DB
  ClientName : String
  NoShellTasks : Bool
  VerboseLogLevel : Bool
  bootstraping : Bool
  registered : Option ConnConfig
  deriving DecidableEq, Repr

/-- The environment: `pid` is `os.Getpid()`, every list holds the answers to one kind of
external call in call order. -/
structure World where
  pid : Nat
  parses : List GoError
  opens : List GoError
  pings : List GoError
  waits : List WaitOutcome
  queries : List (Bool × GoError)
  poolConns : List GoError
  conn : List Reply
  poolExecs : List GoError
  closes : List GoError
  files : List (String × GoError)
  deriving DecidableEq, Repr

/-- The schema scripts, constants of the package defined in other files. -/
structure Scripts where
  sqlDDL : String
  sqlJSONSchema : String
  sqlTasks : String
  sqlJobFunctions : String
  deriving DecidableEq, Repr

/-! ## Constants -/

/-- Seconds to wait before reconnecting: `const WaitTime = 5`. -/
def WaitTime : Nat := 5

/-- Ceiling of the wait: `const maxWaitTime = WaitTime * 16`. -/
def maxWaitTime : Nat := WaitTime * 16

/-- The script list: `var sqls = []string{sqlDDL, sqlJSONSchema, sqlTasks, sqlJobFunctions}`. -/
def sqls (sc : Scripts) : List String :=
  [sc.sqlDDL, sc.sqlJSONSchema, sc.sqlTasks, sc.sqlJobFunctions]

/-- The script names: `var sqlNames`. -/
def sqlNames : List String := ["DDL", "JSON Schema", "Built-in Tasks", "Job Functions"]

/-- The bytes of `[]byte("t")`. -/
def tBytes : List Nat := [116]

/-- The statement built in `TryLockClientName` by
`fmt.Sprintf("SELECT timetable.try_lock_client_name(%d, $worker$%s$worker$)", os.Getpid(), ClientName)`. -/
def lockSQL (pid : Nat) (name : String) : String :=
  "SELECT timetable.try_lock_client_name(" ++ toString pid ++ ", $worker$" ++ name ++ "$worker$)"

/-- The statement of the hook: `"LISTEN "+ClientName`. -/
def listenSQL (name : String) : String := "LISTEN " ++ name

def existsSQL : String :=
  "SELECT EXISTS(SELECT 1 FROM pg_namespace WHERE nspname = 'timetable')"

def dropSQL : String := "DROP SCHEMA IF EXISTS timetable CASCADE"

def deleteSQL : String :=
  "DELETE FROM timetable.active_session WHERE client_pid = $1 AND client_name = $2"

/-- The connection string of `InitAndTestConfigDBConnection`. -/
def connstrOf (o : CmdOptions) : String :=
  "application_name='pg_timetable' host='" ++ o.Host ++ "' port='" ++ o.Port ++
    "' dbname='" ++ o.Dbname ++ "' sslmode='" ++ o.SSLMode ++ "' user='" ++ o.User ++
    "' password='" ++ o.Password ++ "'"

/-! ## TryLockClientName -/

/-- The cell `results[0].Rows[0][0]`; `none` when one of the three indexings is out of
range (a panic in Go). -/
def firstCell (results : List Result) : Option (List Nat) :=
  match results with
  | [] => none
  | r :: _ =>
    match r.Rows with
    | [] => none
    | row :: _ =>
      match row with
      | [] => none
      | c :: _ => some c

/-- The update of the wait at the end of an iteration: `if wt < maxWaitTime { wt = wt * 2 }`.
The product is only taken below `maxWaitTime`, so it never overflows a Go `int`. -/
def nextWait (wt : Nat) : Nat := if wt < maxWaitTime then wt * 2 else wt

/-- The `for` loop of `TryLockClientName` with the current `wt`, on the replies of the
connection and the outcomes of the waits.  Returns what the function returns, the unread
replies and wait outcomes, and the events. -/
def lockLoop (sql : String) :
    Nat → List Reply → List WaitOutcome →
      Option (Outcome GoError × List Reply × List WaitOutcome × List Event)
  | _, [], _ => none
  | wt, r :: rs, ws =>
    match r.err with
    | some e => some (.ret (some e), rs, ws, [.connExec sql (some e)])
    | none =>
      match firstCell r.results with
      | none => some (.panic, rs, ws, [.connExec sql none])
      | some c =>
        if c ≠ tBytes then
          match ws with
          | [] => none
          | .done e :: ws1 =>
            some (.ret (some e), rs, ws1, [.connExec sql none, .wait wt (.done e)])
          | .timer :: ws1 =>
            match lockLoop sql (nextWait wt) rs ws1 with
            | none => none
            | some (o, rs2, ws2, ev) =>
              some (o, rs2, ws2, .connExec sql none :: .wait wt .timer :: ev)
        else some (.ret none, rs, ws, [.connExec sql none])

/-- `TryLockClientName(ctx, conn)`: nothing while `bootstraping`, else the loop started with
`wt = WaitTime`. -/
def TryLockClientName (s : State) (w : World) :
    Option (Outcome GoError × World × List Event) :=
  if s.bootstraping then some (.ret none, w, [])
  else
    match lockLoop (lockSQL w.pid s.ClientName) WaitTime w.conn w.waits with
    | none => none
    | some (o, rs, ws, ev) => some (o, { w with conn := rs, waits := ws }, ev)

/-- The `AfterConnect` hook installed by `InitAndTestConfigDBConnection`:
`TryLockClientName`, then `pgconn.Exec(ctx, "LISTEN "+ClientName).Close()`. -/
def AfterConnect (s : State) (w : World) :
    Option (Outcome GoError × World × List Event) :=
  match TryLockClientName s w with
  | none => none
  | some (.panic, w1, ev) => some (.panic, w1, ev)
  | some (.ret (some e), w1, ev) => some (.ret (some e), w1, ev)
  | some (.ret none, w1, ev) =>
    match w1.conn with
    | [] => none
    | r :: rs =>
      some (.ret r.err, { w1 with conn := rs }, ev ++ [.connExec (listenSQL s.ClientName) r.err])

/-! ## ExecuteSchemaScripts -/

/-- The `for i, sql := range sqls` loop inside the closure passed to `conn.Raw`.
`some err` in the first component: the closure returned `err` from inside the loop (the
captured `err` was overwritten by the result of the DROP before `return err`); `none`: the
loop ran to its end. -/
def runScripts : List String → List Reply → Option (Option GoError × List Reply × List Event)
  | [], rs => some (none, rs, [])
  | _ :: _, [] => none
  | sql :: rest, r :: rs =>
    match r.err with
    | some e =>
      match rs with
      | [] => none
      | d :: rs1 => some (some d.err, rs1, [.connExec sql (some e), .connExec dropSQL d.err])
    | none =>
      match runScripts rest rs with
      | none => none
      | some (res, rs1, ev) => some (res, rs1, .connExec sql none :: ev)

/-- `ExecuteSchemaScripts(ctx)`. -/
def ExecuteSchemaScripts (sc : Scripts) (s : State) (w : World) :
    Option (Outcome Bool × State × World × List Event) :=
  match s.ConfigDb with
  | none => some (.panic, s, w, [])
  | some _ =>
    match w.queries with
    | [] => none
    | (found, qerr) :: qs =>
      let w1 := { w with queries := qs }
      let ev1 := [Event.poolQuery existsSQL found qerr]
      match qerr with
      | some _ => some (.ret false, s, w1, ev1)
      | none =>
        let s1 := { s with bootstraping := false }
        if !found then
          match w1.poolConns with
          | [] => none
          | some e :: cs => some (.ret false, s1, { w1 with poolConns := cs }, ev1 ++ [.poolConn (some e)])
          | none :: cs =>
            let w2 := { w1 with poolConns := cs }
            let ev2 := ev1 ++ [Event.poolConn none]
            match runScripts (sqls sc) w2.conn with
            | none => none
            | some (some rawErr, rs, ev) =>
              some (.ret (decide (rawErr = none)), s1, { w2 with conn := rs }, ev2 ++ ev)
            | some (none, rs, ev) =>
              match TryLockClientName s1 { w2 with conn := rs } with
              | none => none
              | some (.panic, w3, ev3) => some (.panic, s1, w3, ev2 ++ ev ++ ev3)
              | some (.ret rawErr, w3, ev3) =>
                some (.ret (decide (rawErr = none)), s1, w3, ev2 ++ ev ++ ev3)
        else some (.ret true, s1, w1, ev1)

/-! ## ExecuteCustomScripts -/

/-- `ExecuteCustomScripts(ctx, filename...)`. -/
def ExecuteCustomScripts (s : State) :
    List String → World → Option (Outcome Bool × World × List Event)
  | [], w => some (.ret true, w, [])
  | f :: fs, w =>
    match w.files with
    | [] => none
    | (_, some e) :: fl => some (.ret false, { w with files := fl }, [.readFile f (some e)])
    | (content, none) :: fl =>
      match s.ConfigDb with
      | none => some (.panic, { w with files := fl }, [.readFile f none])
      | some _ =>
        match w.poolExecs with
        | [] => none
        | some e :: xs =>
          some (.ret false, { w with files := fl, poolExecs := xs },
            [.readFile f none, .poolExec content [] (some e)])
        | none :: xs =>
          match ExecuteCustomScripts s fs { w with files := fl, poolExecs := xs } with
          | none => none
          | some (o, w1, ev) => some (o, w1, .readFile f none :: .poolExec content [] none :: ev)

/-! ## InitAndTestConfigDBConnection -/

/-- How the connect loop of `InitAndTestConfigDBConnection` ends. -/
inductive LoopExit where
  | connected
  | cancelled
  | panic
  deriving DecidableEq, Repr

/-- The loop `for err != nil` of `InitAndTestConfigDBConnection`, with the current `err`
and `wt`; `dbNil` says that `OpenDB` returned no handle, so that `db.PingContext` panics. -/
def connectLoop (dbNil : Bool) :
    GoError → Nat → List WaitOutcome → List GoError →
      Option (LoopExit × List WaitOutcome × List GoError × List Event)
  | none, _, ws, ps => some (.connected, ws, ps, [])
  | some _, _, [], _ => none
  | some _, wt, .done e :: ws, ps => some (.cancelled, ws, ps, [.wait wt (.done e)])
  | some _, wt, .timer :: ws, ps =>
    if dbNil then some (.panic, ws, ps, [.wait wt .timer])
    else
      match ps with
      | [] => none
      | p :: ps1 =>
        match connectLoop dbNil p (nextWait wt) ws ps1 with
        | none => none
        | some (x, ws2, ps2, ev) => some (x, ws2, ps2, .wait wt .timer :: .ping p :: ev)

/-- The configuration built before `stdlib.RegisterConnConfig`. -/
def connConfigOf (o : CmdOptions) : ConnConfig where
  OnNotice := true
  AfterConnect := !o.Debug
  OnNotification := !o.Debug
  LogLevelDebug := o.Verbose
  PreferSimpleProtocol := true

/-- `InitAndTestConfigDBConnection(ctx, cmdOpts)`. -/
def InitAndTestConfigDBConnection (sc : Scripts) (o : CmdOptions) (s : State) (w : World) :
    Option (Outcome Bool × State × World × List Event) :=
  let s0 := { s with ClientName := o.ClientName, NoShellTasks := o.NoShellTasks,
                     VerboseLogLevel := o.Verbose }
  match w.parses with
  | [] => none
  | some e :: prs => some (.ret false, s0, { w with parses := prs }, [.parseConfig (connstrOf o) (some e)])
  | none :: prs =>
    let s1 := { s0 with registered := some (connConfigOf o), bootstraping := true }
    let ev0 := [Event.parseConfig (connstrOf o) none]
    match w.opens with
    | [] => none
    | oerr :: os =>
      let w1 := { w with parses := prs, opens := os }
      let first : Option (GoError × List GoError × List Event) :=
        match oerr with
        | some e => some (some e, w1.pings, [])
        | none =>
          match w1.pings with
          | [] => none
          | p :: ps => some (p, ps, [.ping p])
      match first with
      | none => none
      | some (err, ps, evp) =>
        match connectLoop oerr.isSome err WaitTime w1.waits ps with
        | none => none
        | some (.panic, ws, ps1, ev) =>
          some (.panic, s1, { w1 with waits := ws, pings := ps1 },
            ev0 ++ [.openDB "pgx" oerr] ++ evp ++ ev)
        | some (.cancelled, ws, ps1, ev) =>
          some (.ret false, s1, { w1 with waits := ws, pings := ps1 },
            ev0 ++ [.openDB "pgx" oerr] ++ evp ++ ev)
        | some (.connected, ws, ps1, ev) =>
          let s2 := { s1 with ConfigDb := some { driverName := "pgx" } }
          let ev1 := ev0 ++ [.openDB "pgx" oerr] ++ evp ++ ev
          match ExecuteSchemaScripts sc s2 { w1 with waits := ws, pings := ps1 } with
          | none => none
          | some (.panic, s3, w3, ev3) => some (.panic, s3, w3, ev1 ++ ev3)
          | some (.ret false, s3, w3, ev3) => some (.ret false, s3, w3, ev1 ++ ev3)
          | some (.ret true, s3, w3, ev3) =>
            if o.File ≠ "" then
              match ExecuteCustomScripts s3 [o.File] w3 with
              | none => none
              | some (.panic, w4, ev4) => some (.panic, s3, w4, ev1 ++ ev3 ++ ev4)
              | some (.ret false, w4, ev4) => some (.ret false, s3, w4, ev1 ++ ev3 ++ ev4)
              | some (.ret true, w4, ev4) => some (.ret true, s3, w4, ev1 ++ ev3 ++ ev4)
            else some (.ret true, s3, w3, ev1 ++ ev3)

/-! ## FinalizeConfigDBConnection -/

/-- `FinalizeConfigDBConnection()`. -/
def FinalizeConfigDBConnection (s : State) (w : World) :
    Option (Outcome Unit × State × World × List Event) :=
  match s.ConfigDb with
  | none => some (.panic, s, w, [])
  | some _ =>
    match w.poolExecs with
    | [] => none
    | derr :: xs =>
      match w.closes with
      | [] => none
      | cerr :: cl =>
        some (.ret (), { s with ConfigDb := none }, { w with poolExecs := xs, closes := cl },
          [.poolExec deleteSQL [.int w.pid, .str s.ClientName] derr, .poolClose cerr])

/-! ## ReconnectDbAndFixLeftovers -/

/-- The loop `for ConfigDb.PingContext(ctx) != nil` of `ReconnectDbAndFixLeftovers`:
`true` when a ping succeeded, `false` when the function returned from the `ctx.Done()`
branch. -/
def reconnectLoop :
    List GoError → List WaitOutcome →
      Option (Bool × List GoError × List WaitOutcome × List Event)
  | [], _ => none
  | none :: ps, ws => some (true, ps, ws, [.ping none])
  | some _ :: _, [] => none
  | some e :: ps, .done c :: ws =>
    some (false, ps, ws, [.ping (some e), .wait WaitTime (.done c)])
  | some e :: ps, .timer :: ws =>
    match reconnectLoop ps ws with
    | none => none
    | some (b, ps1, ws1, ev) => some (b, ps1, ws1, .ping (some e) :: .wait WaitTime .timer :: ev)

/-- `ReconnectDbAndFixLeftovers(ctx)`. -/
def ReconnectDbAndFixLeftovers (s : State) (w : World) :
    Option (Outcome Bool × World × List Event) :=
  match s.ConfigDb with
  | none => some (.panic, w, [])
  | some _ =>
    match reconnectLoop w.pings w.waits with
    | none => none
    | some (false, ps, ws, ev) => some (.ret false, { w with pings := ps, waits := ws }, ev)
    | some (true, ps, ws, ev) =>
      some (.ret true, { w with pings := ps, waits := ws }, ev ++ [.fixSchedulerCrash])

/-! ## Observers of an event list -/

/-- The statements sent on the physical connection, in order. -/
def connCmds : List Event → List String
  | [] => []
  | .connExec sql _ :: ev => sql :: connCmds ev
  | _ :: ev => connCmds ev

/-- The durations, in seconds, of the waits, in order. -/
def waitSecs : List Event → List Nat
  | [] => []
  | .wait secs _ :: ev => secs :: waitSecs ev
  | _ :: ev => waitSecs ev

/-- The number of liveness pings. -/
def pingCount : List Event → Nat
  | [] => 0
  | .ping _ :: ev => pingCount ev + 1
  | _ :: ev => pingCount ev

/-- The state of a database after the commands sent on the physical connection, for a
database given by its reaction `apply d sql ok` to a command and its success. -/
def dbAfter {D : Type} (apply : D → String → Bool → D) : D → List Event → D
  | d, [] => d
  | d, .connExec sql err :: ev => dbAfter apply (apply d sql err.isNone) ev
  | d, _ :: ev => dbAfter apply d ev

/-! ## The locking procedure -/

/-- Modelled from the spec: the database-resident ActiveSessionRecord of the data model
(one row of `timetable.active_session`), without `acquiredAt`.  The table is created by
the DDL script, which is not part of this file. -/
structure ActiveSessionRecord where
  clientName : String
  processID : Nat
  serverConnectionID : Nat
  deriving DecidableEq, Repr

/-- Modelled from the spec: the part of the database the locking procedure works on, the
table `active_session` and the server connections that are no longer alive. -/
structure SessionDb where
  active_session : List ActiveSessionRecord
  deadConns : List Nat
  deriving DecidableEq, Repr

/-- Modelled from the spec: a record is stale when its server-side connection is no longer
alive. -/
def SessionDb.stale (db : SessionDb) (r : ActiveSessionRecord) : Bool :=
  decide (r.serverConnectionID ∈ db.deadConns)

/-- Modelled from the spec: the locking procedure `try_lock_client_name(pid, name)` of the
DDL script (its body is not part of this file), called over server connection `conn`.  One
atomic step: stale records are reclaimed; if a different, still-live pid holds `name` the
answer is false and nothing is registered; otherwise `(pid, name)` is registered as the
live record for `name` and the answer is true. -/
def try_lock_client_name (db : SessionDb) (conn pid : Nat) (name : String) :
    SessionDb × Bool :=
  let kept := db.active_session.filter (fun r => !db.stale r)
  if kept.any (fun r => decide (r.clientName = name ∧ r.processID ≠ pid)) then
    ({ db with active_session := kept }, false)
  else
    ({ db with active_session :=
        kept.filter (fun r => decide (r.clientName ≠ name)) ++ [⟨name, pid, conn⟩] }, true)

/-- Modelled from the spec: the deletion of a process's own ActiveSessionRecord, matched by
processID and clientName, on the table `active_session` (not part of this file).  It is
the effect of the statement sent by `FinalizeConfigDBConnection`,
`DELETE FROM timetable.active_session WHERE client_pid = $1 AND client_name = $2`,
when that statement succeeds. -/
def deleteSession (db : SessionDb) (pid : Nat) (name : String) : SessionDb :=
  { db with active_session :=
      db.active_session.filter (fun r => !decide (r.processID = pid ∧ r.clientName = name)) }

/-- Modelled from the spec: the atomic steps on the session table (not part of this file):
a call of the locking procedure by process `pid` over connection `conn`, the DELETE of a
finalizing process, the loss of a server connection. -/
inductive Action where
  | lock (conn pid : Nat) (name : String)
  | finalize (pid : Nat) (name : String)
  | connLost (conn : Nat)
  deriving DecidableEq, Repr

/-- Modelled from the spec: one atomic step on the session table, with the answer of the
locking procedure when the step is a call. -/
def stepDb (db : SessionDb) : Action → SessionDb × Option Bool
  | .lock conn pid name =>
    let r := try_lock_client_name db conn pid name
    (r.1, some r.2)
  | .finalize pid name => (deleteSession db pid name, none)
  | .connLost conn => ({ db with deadConns := conn :: db.deadConns }, none)

/-- Modelled from the spec: the session table after a sequence of atomic steps.  The locking
procedure is atomic, so any interleaving of the calls of any number of processes is such a
sequence. -/
def runDb : SessionDb → List Action → SessionDb
  | db, [] => db
  | db, a :: as => runDb (stepDb db a).1 as

/-- Modelled from the spec: process `pid` holds `name` when the session table has a record
of `pid` for `name` that is not stale. -/
def holds (db : SessionDb) (pid : Nat) (name : String) : Prop :=
  ∃ r ∈ db.active_session, r.clientName = name ∧ r.processID = pid ∧ db.stale r = false

/-- Modelled from the spec: the session table before any session is registered. -/
def emptyDb : SessionDb := { active_session := [], deadConns := [] }

/-- Modelled from the spec: the invariant of the data model, at most one
ActiveSessionRecord per clientName. -/
def AtMostOne (db : SessionDb) : Prop :=
  ∀ name : String,
    (db.active_session.filter (fun r => decide (r.clientName = name))).length ≤ 1

/-! ## Vocabulary of the statements -/

/-- The locking procedure answered, without error, a value other than `t`. -/
def Refusal (r : Reply) : Prop :=
  r.err = none ∧ (firstCell r.results).isSome = true ∧ firstCell r.results ≠ some tBytes

instance : DecidablePred Refusal := fun r => by unfold Refusal; infer_instance

/-- The locking procedure answered, without error, the value `t`. -/
def Granted (r : Reply) : Prop :=
  r.err = none ∧ firstCell r.results = some tBytes

instance : DecidablePred Granted := fun r => by unfold Granted; infer_instance

/-- The value of `wt` after `n` updates, starting from `wt`. -/
def waitAfter : Nat → Nat → Nat
  | wt, 0 => wt
  | wt, n + 1 => waitAfter (nextWait wt) n

/-- The events of `n` refused lock calls, each followed by a wait that elapses. -/
def refusalEvents (sql : String) : Nat → Nat → List Event
  | _, 0 => []
  | wt, n + 1 => .connExec sql none :: .wait wt .timer :: refusalEvents sql (nextWait wt) n

/-- The events of the waits that elapse, each followed by a failed ping. -/
def failedPingEvents : Nat → List Err → List Event
  | _, [] => []
  | wt, e :: es => .wait wt .timer :: .ping (some e) :: failedPingEvents (nextWait wt) es

/-- The events of failed probes of `ReconnectDbAndFixLeftovers`, each followed by a wait of
`secs` seconds that elapses. -/
def failedProbeEvents (secs : Nat) : List Err → List Event
  | [] => []
  | e :: es => .ping (some e) :: .wait secs .timer :: failedProbeEvents secs es

/-- The last error of a non-empty run of errors. -/
def lastErr : Err → List Err → Err
  | e, [] => e
  | _, x :: xs => lastErr x xs

/-- The events of scripts that succeed. -/
def scriptEvents : List String → List Event
  | [] => []
  | sql :: rest => .connExec sql none :: scriptEvents rest

/-- The statements sent through the pool (`ConfigDb.GetContext`, `ConfigDb.Exec`,
`ConfigDb.ExecContext`), in order. -/
def poolCmds : List Event → List String
  | [] => []
  | .poolQuery sql _ _ :: ev => sql :: poolCmds ev
  | .poolExec sql _ _ :: ev => sql :: poolCmds ev
  | _ :: ev => poolCmds ev

/-! ## Sample inputs -/

/-- A state after bootstrap: handle set, flag cleared. -/
def exState : State where
  ConfigDb := some { driverName := "pgx" }
  ClientName := "sched-A"
  NoShellTasks := false
  VerboseLogLevel := false
  bootstraping := false
  registered := none

/-- A world of process 200 in which no external call is answered yet. -/
def exWorld : World where
  pid := 200
  parses := []
  opens := []
  pings := []
  waits := []
  queries := []
  poolConns := []
  conn := []
  poolExecs := []
  closes := []
  files := []

def exScripts : Scripts where
  sqlDDL := "CREATE SCHEMA timetable"
  sqlJSONSchema := "CREATE DOMAIN timetable.json_schema AS jsonb"
  sqlTasks := "INSERT INTO timetable.base_task DEFAULT VALUES"
  sqlJobFunctions := "CREATE FUNCTION timetable.job_add() RETURNS int LANGUAGE sql AS 'SELECT 1'"

def exOpts : CmdOptions where
  ClientName := "sched-A"
  NoShellTasks := false
  Verbose := false
  Debug := false
  File := ""
  Host := "localhost"
  Port := "5432"
  Dbname := "timetable"
  SSLMode := "disable"
  User := "scheduler"
  Password := "secret"

/-- The procedure answered `f`. -/
def replyRefused : Reply := { results := [{ Rows := [[[102]]] }], err := none }

/-- The procedure answered `t`. -/
def replyGranted : Reply := { results := [{ Rows := [[[116]]] }], err := none }

/-- A command that succeeded and returned no row. -/
def replyOk : Reply := { results := [], err := none }

/-- A command that failed. -/
def replyFailed : Reply := { results := [], err := some (.other "syntax error") }

/-- Process 100 locks `sched-A` over connection 1, then process 200 tries over connection 2. -/
def exActs : List Action := [.lock 1 100 "sched-A", .lock 2 200 "sched-A"]

/-! ## Lemmas on the waits -/

theorem waitAfter_succ (wt n : Nat) : waitAfter wt (n + 1) = nextWait (waitAfter wt n) := by
  induction n generalizing wt with
  | zero => rfl
  | succ n ih => exact ih (nextWait wt)

theorem waitAfter_WaitTime (n : Nat) : waitAfter WaitTime n = min (5 * 2 ^ n) 80 := by
  induction n with
  | zero => decide
  | succ n ih =>
    rw [waitAfter_succ, ih]
    unfold nextWait maxWaitTime WaitTime
    by_cases h : n < 4
    · interval_cases n <;> decide
    · have h4 : 4 ≤ n := Nat.le_of_not_lt h
      have hp : 2 ^ 4 ≤ 2 ^ n := Nat.pow_le_pow_right (by decide) h4
      have e1 : min (5 * 2 ^ n) 80 = 80 := by omega
      have e2 : min (5 * 2 ^ (n + 1)) 80 = 80 := by
        rw [pow_succ]; omega
      rw [e1, e2]; decide

/-! ## Lemmas on the observers -/

theorem connCmds_append (a b : List Event) : connCmds (a ++ b) = connCmds a ++ connCmds b := by
  induction a with
  | nil => rfl
  | cons x a ih => cases x <;> simp [connCmds, ih]

theorem waitSecs_append (a b : List Event) : waitSecs (a ++ b) = waitSecs a ++ waitSecs b := by
  induction a with
  | nil => rfl
  | cons x a ih => cases x <;> simp [waitSecs, ih]

theorem dbAfter_append {D : Type} (apply : D → String → Bool → D) (d : D) (a b : List Event) :
    dbAfter apply d (a ++ b) = dbAfter apply (dbAfter apply d a) b := by
  induction a generalizing d with
  | nil => rfl
  | cons x a ih => cases x <;> simp [dbAfter, ih]

theorem range_map_shift (f : Nat → Nat) (n : Nat) :
    (List.range (n + 1)).map f = f 0 :: (List.range n).map (fun i => f (i + 1)) := by
  rw [List.range_succ_eq_map]
  simp [List.map_map, Function.comp_def]

theorem connCmds_refusalEvents (sql : String) (wt n : Nat) :
    connCmds (refusalEvents sql wt n) = List.replicate n sql := by
  induction n generalizing wt with
  | zero => rfl
  | succ n ih => simp [refusalEvents, connCmds, ih, List.replicate_succ]

theorem waitSecs_refusalEvents (sql : String) (wt n : Nat) :
    waitSecs (refusalEvents sql wt n) = (List.range n).map (fun i => waitAfter wt i) := by
  induction n generalizing wt with
  | zero => rfl
  | succ n ih =>
    rw [range_map_shift]
    simp [refusalEvents, waitSecs, ih, waitAfter]

theorem waitSecs_failedPingEvents (wt : Nat) (es : List Err) :
    waitSecs (failedPingEvents wt es) = (List.range es.length).map (fun i => waitAfter wt i) := by
  induction es generalizing wt with
  | nil => rfl
  | cons e es ih =>
    rw [List.length_cons, range_map_shift]
    simp [failedPingEvents, waitSecs, ih, waitAfter]

theorem pingCount_append (a b : List Event) : pingCount (a ++ b) = pingCount a + pingCount b := by
  induction a with
  | nil => simp [pingCount]
  | cons x a ih =>
    cases x <;> simp [pingCount, ih]
    omega

theorem pingCount_failedPingEvents (wt : Nat) (es : List Err) :
    pingCount (failedPingEvents wt es) = es.length := by
  induction es generalizing wt with
  | nil => rfl
  | cons e es ih => simp [failedPingEvents, pingCount, ih]

theorem waitSecs_failedProbeEvents (secs : Nat) (es : List Err) :
    waitSecs (failedProbeEvents secs es) = List.replicate es.length secs := by
  induction es with
  | nil => rfl
  | cons e es ih => simp [failedProbeEvents, waitSecs, ih, List.replicate_succ]

theorem pingCount_failedProbeEvents (secs : Nat) (es : List Err) :
    pingCount (failedProbeEvents secs es) = es.length := by
  induction es with
  | nil => rfl
  | cons e es ih => simp [failedProbeEvents, pingCount, ih]

theorem fix_not_mem_failedProbeEvents (secs : Nat) (es : List Err) :
    Event.fixSchedulerCrash ∉ failedProbeEvents secs es := by
  induction es with
  | nil => simp [failedProbeEvents]
  | cons e es ih => simp [failedProbeEvents, ih]

theorem connCmds_scriptEvents (l : List String) : connCmds (scriptEvents l) = l := by
  induction l with
  | nil => rfl
  | cons x l ih => simp [scriptEvents, connCmds, ih]

/-! ## Lemmas on the loops -/

theorem lockLoop_refusals (sql : String) (refs : List Reply) (h : ∀ r ∈ refs, Refusal r)
    (wt : Nat) (tl : List Reply) (tw : List WaitOutcome) :
    lockLoop sql wt (refs ++ tl) (List.replicate refs.length .timer ++ tw) =
      match lockLoop sql (waitAfter wt refs.length) tl tw with
      | none => none
      | some (o, rs, ws, ev) => some (o, rs, ws, refusalEvents sql wt refs.length ++ ev) := by
  induction refs generalizing wt with
  | nil =>
    simp only [List.nil_append, List.length_nil, List.replicate_zero, waitAfter, refusalEvents]
    cases lockLoop sql wt tl tw <;> rfl
  | cons r refs ih =>
    have hr : Refusal r := h r (List.mem_cons_self _ _)
    have ih2 := ih (fun x hx => h x (List.mem_cons_of_mem _ hx)) (nextWait wt)
    obtain ⟨he, hs, hne⟩ := hr
    obtain ⟨c, hc⟩ := Option.isSome_iff_exists.mp hs
    have hct : c ≠ tBytes := fun heq => hne (by rw [hc, heq])
    simp only [List.cons_append, List.length_cons, List.replicate_succ, lockLoop, he, hc, hct,
      ne_eq, not_false_eq_true, ↓reduceIte, waitAfter, refusalEvents, List.append_eq]
    rw [ih2]
    cases lockLoop sql (waitAfter (nextWait wt) refs.length) tl tw <;> rfl

theorem lockLoop_granted (sql : String) (wt : Nat) (ok : Reply) (h : Granted ok)
    (tl : List Reply) (tw : List WaitOutcome) :
    lockLoop sql wt (ok :: tl) tw = some (.ret none, tl, tw, [.connExec sql none]) := by
  obtain ⟨he, hc⟩ := h
  simp [lockLoop, he, hc]

theorem lockLoop_cancelled (sql : String) (wt : Nat) (r : Reply) (h : Refusal r) (e : Err)
    (tl : List Reply) (tw : List WaitOutcome) :
    lockLoop sql wt (r :: tl) (.done e :: tw) =
      some (.ret (some e), tl, tw, [.connExec sql none, .wait wt (.done e)]) := by
  obtain ⟨he, hs, hne⟩ := h
  obtain ⟨c, hc⟩ := Option.isSome_iff_exists.mp hs
  have hct : c ≠ tBytes := fun heq => hne (by rw [hc, heq])
  simp [lockLoop, he, hc, hct]

theorem connectLoop_failures (es : List Err) (e : Err) (wt : Nat)
    (tw : List WaitOutcome) (tp : List GoError) :
    connectLoop false (some e) wt (List.replicate es.length .timer ++ tw)
        (es.map some ++ tp) =
      match connectLoop false (some (lastErr e es)) (waitAfter wt es.length) tw tp with
      | none => none
      | some (x, ws, ps, ev) => some (x, ws, ps, failedPingEvents wt es ++ ev) := by
  induction es generalizing e wt with
  | nil =>
    simp only [List.length_nil, List.replicate_zero, List.nil_append, List.map_nil, lastErr,
      waitAfter, failedPingEvents]
    cases connectLoop false (some e) wt tw tp <;> rfl
  | cons x es ih =>
    simp only [List.length_cons, List.replicate_succ, List.cons_append, List.map_cons,
      connectLoop, lastErr, waitAfter, failedPingEvents, Bool.false_eq_true, ↓reduceIte,
      List.append_eq]
    rw [ih x (nextWait wt)]
    cases connectLoop false (some (lastErr x es)) (waitAfter (nextWait wt) es.length) tw tp <;> rfl

theorem reconnectLoop_failures (es : List Err) (tp : List GoError) (tw : List WaitOutcome) :
    reconnectLoop (es.map some ++ tp) (List.replicate es.length .timer ++ tw) =
      match reconnectLoop tp tw with
      | none => none
      | some (b, ps, ws, ev) => some (b, ps, ws, failedProbeEvents WaitTime es ++ ev) := by
  induction es with
  | nil =>
    simp only [List.map_nil, List.nil_append, List.length_nil, List.replicate_zero,
      failedProbeEvents]
    cases reconnectLoop tp tw <;> rfl
  | cons x es ih =>
    simp only [List.map_cons, List.cons_append, List.length_cons, List.replicate_succ,
      reconnectLoop, failedProbeEvents, List.append_eq]
    rw [ih]
    cases reconnectLoop tp tw <;> rfl

theorem runScripts_first_failure (pre : List String) (sql : String) (post : List String)
    (oks : List Reply) (hlen : oks.length = pre.length) (hok : ∀ r ∈ oks, r.err = none)
    (bad : Reply) (e : Err) (hbad : bad.err = some e) (d : Reply) (tl : List Reply) :
    runScripts (pre ++ sql :: post) (oks ++ bad :: d :: tl) =
      some (some d.err, tl,
        scriptEvents pre ++ [.connExec sql (some e), .connExec dropSQL d.err]) := by
  induction pre generalizing oks with
  | nil =>
    have : oks = [] := List.length_eq_zero.mp hlen
    subst this
    simp [runScripts, hbad, scriptEvents]
  | cons p pre ih =>
    match oks, hlen, hok with
    | [], hlen, _ => simp at hlen
    | r :: oks, hlen, hok =>
      have hr : r.err = none := hok r (List.mem_cons_self _ _)
      have ih2 := ih oks (by simpa using hlen) (fun x hx => hok x (List.mem_cons_of_mem _ hx))
      simp only [List.cons_append, runScripts, hr, scriptEvents, List.append_eq]
      rw [ih2]

/-! ## The lock retry loop -/

/-- C3: with the bootstrapping flag cleared, when the locking procedure answers a refusal
`k` times and then `t`, without error and with every wait elapsing, `TryLockClientName`
sends the lock statement exactly `k + 1` times and returns nil. -/
theorem TryLockClientName_refused_then_granted (k : Nat) (s : State) (w : World)
    (refs : List Reply) (ok : Reply) (tl : List Reply) (tw : List WaitOutcome)
    (hb : s.bootstraping = false) (hlen : refs.length = k) (href : ∀ r ∈ refs, Refusal r)
    (hok : Granted ok) (hconn : w.conn = refs ++ ok :: tl)
    (hw : w.waits = List.replicate k .timer ++ tw) :
    ∃ ev, TryLockClientName s w = some (.ret none, { w with conn := tl, waits := tw }, ev) ∧
      connCmds ev = List.replicate (k + 1) (lockSQL w.pid s.ClientName) := by
  subst hlen
  refine ⟨refusalEvents (lockSQL w.pid s.ClientName) WaitTime refs.length ++
    [.connExec (lockSQL w.pid s.ClientName) none], ?_, ?_⟩
  · simp only [TryLockClientName, hb, Bool.false_eq_true, ↓reduceIte, hconn, hw]
    rw [lockLoop_refusals _ _ href, lockLoop_granted _ _ _ hok]
  · rw [connCmds_append, connCmds_refusalEvents, List.replicate_succ']
    rfl

theorem TryLockClientName_refused_then_granted_witness :
    ∃ ev, TryLockClientName exState
        { exWorld with conn := [replyRefused, replyRefused, replyGranted] ,
                       waits := [.timer, .timer] } =
        some (.ret none, { exWorld with conn := [], waits := [] }, ev) ∧
      connCmds ev = List.replicate (2 + 1) (lockSQL 200 "sched-A") :=
  TryLockClientName_refused_then_granted 2 exState
    { exWorld with conn := [replyRefused, replyRefused, replyGranted], waits := [.timer, .timer] }
    [replyRefused, replyRefused] replyGranted [] [] rfl rfl (by decide) (by decide) rfl rfl

/-- C2: in the lock retry loop of `TryLockClientName` (`k` refusals, then `t`) and in the
initial-connect loop of `InitAndTestConfigDBConnection` (`p` is the result of the first
ping and `ps` are the later ones: `k` failed pings, then a successful one), the waits are,
in order, `min (5 * 2 ^ n) 80` seconds for `n = 0 .. k - 1`, so the wait before retry
number `n + 1` is `min (5 * 2 ^ n) 80`; the sequence starts at `WaitTime`, never decreases,
never exceeds `maxWaitTime`, and begins 5, 10, 20, 40, 80, 80. -/
theorem backoff_wait_sequence (k : Nat) (s : State) (w : World)
    (refs : List Reply) (ok : Reply) (tl : List Reply) (tw : List WaitOutcome)
    (errs : List Err) (p : GoError) (ps tp : List GoError)
    (hb : s.bootstraping = false) (hlen : refs.length = k) (href : ∀ r ∈ refs, Refusal r)
    (hok : Granted ok) (hconn : w.conn = refs ++ ok :: tl)
    (hw : w.waits = List.replicate k .timer ++ tw)
    (helen : errs.length = k) (hp : p :: ps = errs.map some ++ none :: tp) :
    (∃ ev, TryLockClientName s w = some (.ret none, { w with conn := tl, waits := tw }, ev) ∧
      waitSecs ev = (List.range k).map (fun n => min (5 * 2 ^ n) 80)) ∧
    (∃ ev, connectLoop false p WaitTime w.waits ps = some (.connected, tw, tp, ev) ∧
      waitSecs ev = (List.range k).map (fun n => min (5 * 2 ^ n) 80)) ∧
    min (5 * 2 ^ 0) 80 = WaitTime ∧
    (∀ n : Nat, min (5 * 2 ^ n) 80 ≤ min (5 * 2 ^ (n + 1)) 80) ∧
    (∀ n : Nat, min (5 * 2 ^ n) 80 ≤ maxWaitTime) ∧
    (List.range 6).map (fun n => min (5 * 2 ^ n) 80) = [5, 10, 20, 40, 80, 80] := by
  have hfun : (fun n => waitAfter WaitTime n) = (fun n => min (5 * 2 ^ n) 80) :=
    funext waitAfter_WaitTime
  refine ⟨?_, ?_, by decide, ?_, ?_, by decide⟩
  · subst hlen
    refine ⟨refusalEvents (lockSQL w.pid s.ClientName) WaitTime refs.length ++
      [.connExec (lockSQL w.pid s.ClientName) none], ?_, ?_⟩
    · simp only [TryLockClientName, hb, Bool.false_eq_true, ↓reduceIte, hconn, hw]
      rw [lockLoop_refusals _ _ href, lockLoop_granted _ _ _ hok]
    · rw [waitSecs_append, waitSecs_refusalEvents, hfun]
      simp [waitSecs]
  · rw [hw]
    cases errs with
    | nil =>
      simp only [List.map_nil, List.nil_append, List.cons.injEq] at hp
      obtain ⟨rfl, rfl⟩ := hp
      simp only [List.length_nil] at helen
      subst helen
      exact ⟨[], by simp [connectLoop], rfl⟩
    | cons e es =>
      simp only [List.map_cons, List.cons_append, List.cons.injEq] at hp
      obtain ⟨rfl, rfl⟩ := hp
      simp only [List.length_cons] at helen
      subst helen
      refine ⟨failedPingEvents WaitTime es ++
        [.wait (waitAfter WaitTime es.length) .timer, .ping none], ?_, ?_⟩
      · rw [List.replicate_succ', List.append_assoc, connectLoop_failures]
        simp [connectLoop]
      · rw [waitSecs_append, waitSecs_failedPingEvents, hfun, List.range_succ, List.map_append]
        simp [waitSecs, waitAfter_WaitTime]
  · intro n
    have : 2 ^ n ≤ 2 ^ (n + 1) := Nat.pow_le_pow_right (by decide) (Nat.le_succ n)
    omega
  · intro n
    unfold maxWaitTime WaitTime
    omega

theorem backoff_wait_sequence_witness :
    (∃ ev, TryLockClientName exState
        { exWorld with conn := [replyRefused, replyRefused, replyRefused, replyGranted],
                       waits := [.timer, .timer, .timer] } =
        some (.ret none, { exWorld with conn := [], waits := [] }, ev) ∧
      waitSecs ev = (List.range 3).map (fun n => min (5 * 2 ^ n) 80)) ∧
    (∃ ev, connectLoop false (some .deadlineExceeded) WaitTime [.timer, .timer, .timer]
        [some .deadlineExceeded, some .deadlineExceeded, none] = some (.connected, [], [], ev) ∧
      waitSecs ev = (List.range 3).map (fun n => min (5 * 2 ^ n) 80)) ∧
    min (5 * 2 ^ 0) 80 = WaitTime ∧
    (∀ n : Nat, min (5 * 2 ^ n) 80 ≤ min (5 * 2 ^ (n + 1)) 80) ∧
    (∀ n : Nat, min (5 * 2 ^ n) 80 ≤ maxWaitTime) ∧
    (List.range 6).map (fun n => min (5 * 2 ^ n) 80) = [5, 10, 20, 40, 80, 80] :=
  backoff_wait_sequence 3 exState
    { exWorld with conn := [replyRefused, replyRefused, replyRefused, replyGranted],
                   waits := [.timer, .timer, .timer] }
    [replyRefused, replyRefused, replyRefused] replyGranted [] []
    [.deadlineExceeded, .deadlineExceeded, .deadlineExceeded] (some .deadlineExceeded)
    [some .deadlineExceeded, some .deadlineExceeded, none] []
    rfl rfl (by decide) (by decide) rfl rfl rfl rfl

/-! ## Schema installation -/

theorem ExecuteSchemaScripts_first_failure (sc : Scripts) (s : State) (w : World) (db : DB)
    (qs : List (Bool × GoError)) (cs : List GoError)
    (pre : List String) (sql : String) (post : List String)
    (oks : List Reply) (bad d : Reply) (e : Err) (tl : List Reply)
    (hdb : s.ConfigDb = some db) (hq : w.queries = (false, none) :: qs)
    (hc : w.poolConns = none :: cs) (hsql : sqls sc = pre ++ sql :: post)
    (hlen : oks.length = pre.length) (hok : ∀ r ∈ oks, r.err = none)
    (hbad : bad.err = some e) (hconn : w.conn = oks ++ bad :: d :: tl) :
    ExecuteSchemaScripts sc s w =
      some (.ret (decide (d.err = none)), { s with bootstraping := false },
        { w with queries := qs, poolConns := cs, conn := tl },
        [.poolQuery existsSQL false none, .poolConn none] ++
          (scriptEvents pre ++ [.connExec sql (some e), .connExec dropSQL d.err])) := by
  simp only [ExecuteSchemaScripts, hdb, hq, hc, hconn, hsql,
    runScripts_first_failure pre sql post oks hlen hok bad e hbad d tl]
  rfl

theorem sqls_split (sc : Scripts) (i : Nat) (hi : i < 4) :
    ∃ sql, sqls sc = (sqls sc).take i ++ sql :: (sqls sc).drop (i + 1) ∧
      (sqls sc).take (i + 1) = (sqls sc).take i ++ [sql] ∧ ((sqls sc).take i).length = i := by
  interval_cases i
  · exact ⟨sc.sqlDDL, rfl, rfl, rfl⟩
  · exact ⟨sc.sqlJSONSchema, rfl, rfl, rfl⟩
  · exact ⟨sc.sqlTasks, rfl, rfl, rfl⟩
  · exact ⟨sc.sqlJobFunctions, rfl, rfl, rfl⟩

/-- C1, as the code behaves: with the namespace absent, when script `i` is the first to
fail and the DROP SCHEMA that follows succeeds, `ExecuteSchemaScripts` returns true: the
error of the script is overwritten by the nil result of the DROP. -/
theorem ExecuteSchemaScripts_true_when_drop_succeeds (sc : Scripts) (s : State) (w : World)
    (db : DB) (qs : List (Bool × GoError)) (cs : List GoError) (i : Nat)
    (oks : List Reply) (bad d : Reply) (e : Err) (tl : List Reply)
    (hdb : s.ConfigDb = some db) (hq : w.queries = (false, none) :: qs)
    (hc : w.poolConns = none :: cs) (hi : i < 4)
    (hlen : oks.length = i) (hok : ∀ r ∈ oks, r.err = none)
    (hbad : bad.err = some e) (hdrop : d.err = none) (hconn : w.conn = oks ++ bad :: d :: tl) :
    ∃ ev, ExecuteSchemaScripts sc s w =
      some (.ret true, { s with bootstraping := false },
        { w with queries := qs, poolConns := cs, conn := tl }, ev) := by
  obtain ⟨sql, hsplit, _, hl⟩ := sqls_split sc i hi
  have h := ExecuteSchemaScripts_first_failure sc s w db qs cs _ sql _ oks bad d e tl hdb hq hc
    hsplit (by rw [hl, hlen]) hok hbad hconn
  rw [hdrop] at h
  exact ⟨_, by simpa using h⟩

theorem ExecuteSchemaScripts_true_when_drop_succeeds_witness :
    ∃ ev, ExecuteSchemaScripts exScripts exState
      { exWorld with queries := [(false, none)], poolConns := [none],
                     conn := [replyFailed, replyOk] } =
      some (.ret true, { exState with bootstraping := false },
        { exWorld with queries := [], poolConns := [], conn := [] }, ev) :=
  ExecuteSchemaScripts_true_when_drop_succeeds exScripts exState
    { exWorld with queries := [(false, none)], poolConns := [none],
                   conn := [replyFailed, replyOk] }
    { driverName := "pgx" } [] [] 0 [] replyFailed replyOk (.other "syntax error") []
    rfl rfl rfl (by decide) rfl (by decide) rfl rfl rfl

/-- C4: with the namespace absent, when script `i` of the list
`[sqlDDL, sqlJSONSchema, sqlTasks, sqlJobFunctions]` is the first to fail,
`ExecuteSchemaScripts` returns after sending, on the raw connection, exactly the scripts
`0 .. i` in order and then one `DROP SCHEMA IF EXISTS timetable CASCADE`: no later script
and no lock statement is sent, no further reply is read, and in any database in which a
successful DROP leaves the namespace absent, the namespace is absent afterwards when the
DROP succeeded. -/
theorem ExecuteSchemaScripts_rollback_commands (sc : Scripts) (s : State) (w : World)
    (db : DB) (qs : List (Bool × GoError)) (cs : List GoError) (i : Nat)
    (oks : List Reply) (bad d : Reply) (e : Err) (tl : List Reply)
    (hdb : s.ConfigDb = some db) (hq : w.queries = (false, none) :: qs)
    (hc : w.poolConns = none :: cs) (hi : i < 4)
    (hlen : oks.length = i) (hok : ∀ r ∈ oks, r.err = none)
    (hbad : bad.err = some e) (hconn : w.conn = oks ++ bad :: d :: tl) :
    sqls sc = [sc.sqlDDL, sc.sqlJSONSchema, sc.sqlTasks, sc.sqlJobFunctions] ∧
    ∃ b s1 w1 ev, ExecuteSchemaScripts sc s w = some (.ret b, s1, w1, ev) ∧
      connCmds ev = (sqls sc).take (i + 1) ++ [dropSQL] ∧
      w1.conn = tl ∧
      ∀ (D : Type) (apply : D → String → Bool → D) (nsExists : D → Bool) (d0 : D),
        (∀ x, nsExists (apply x dropSQL true) = false) → d.err = none →
          nsExists (dbAfter apply d0 ev) = false := by
  obtain ⟨sql, hsplit, htake, hl⟩ := sqls_split sc i hi
  refine ⟨rfl, _, _, _, _, ExecuteSchemaScripts_first_failure sc s w db qs cs _ sql _ oks bad d e
    tl hdb hq hc hsplit (by rw [hl, hlen]) hok hbad hconn, ?_, rfl, ?_⟩
  · rw [connCmds_append, connCmds_append, connCmds_scriptEvents, htake]
    simp [connCmds]
  · intro D apply nsExists d0 hdropOk hd
    rw [← List.append_assoc, dbAfter_append]
    simp [dbAfter, hd, hdropOk]

theorem ExecuteSchemaScripts_rollback_commands_witness :
    sqls exScripts =
      [exScripts.sqlDDL, exScripts.sqlJSONSchema, exScripts.sqlTasks,
        exScripts.sqlJobFunctions] ∧
    ∃ b s1 w1 ev, ExecuteSchemaScripts exScripts exState
        { exWorld with queries := [(false, none)], poolConns := [none],
                       conn := [replyOk, replyOk, replyFailed, replyOk, replyGranted] } =
        some (.ret b, s1, w1, ev) ∧
      connCmds ev = (sqls exScripts).take (2 + 1) ++ [dropSQL] ∧
      w1.conn = [replyGranted] ∧
      ∀ (D : Type) (apply : D → String → Bool → D) (nsExists : D → Bool) (d0 : D),
        (∀ x, nsExists (apply x dropSQL true) = false) → replyOk.err = none →
          nsExists (dbAfter apply d0 ev) = false :=
  ExecuteSchemaScripts_rollback_commands exScripts exState
    { exWorld with queries := [(false, none)], poolConns := [none],
                   conn := [replyOk, replyOk, replyFailed, replyOk, replyGranted] }
    { driverName := "pgx" } [] [] 2 [replyOk, replyOk] replyFailed replyOk
    (.other "syntax error") [replyGranted]
    rfl rfl rfl (by decide) rfl (by decide) rfl rfl

/-- C5: when the existence query succeeds and reports that the namespace exists,
`ExecuteSchemaScripts` only sends that query: no script, no DROP, no lock statement; it
clears `bootstraping` and returns true.  Run again on the resulting state, with the same
answer to the query, it does the same and leaves the state unchanged. -/
theorem ExecuteSchemaScripts_schema_exists (sc : Scripts) (s : State) (w : World) (db : DB)
    (qs : List (Bool × GoError))
    (hdb : s.ConfigDb = some db) (hq : w.queries = (true, none) :: qs) :
    ExecuteSchemaScripts sc s w =
      some (.ret true, { s with bootstraping := false },
        { w with queries := qs }, [.poolQuery existsSQL true none]) ∧
    ∀ qs2 : List (Bool × GoError), qs = (true, none) :: qs2 →
      ExecuteSchemaScripts sc { s with bootstraping := false } { w with queries := qs } =
        some (.ret true, { s with bootstraping := false },
          { w with queries := qs2 }, [.poolQuery existsSQL true none]) := by
  refine ⟨?_, ?_⟩
  · simp [ExecuteSchemaScripts, hdb, hq]
  · intro qs2 h2
    simp [ExecuteSchemaScripts, hdb, h2]

theorem ExecuteSchemaScripts_schema_exists_witness :
    ExecuteSchemaScripts exScripts { exState with bootstraping := true }
        { exWorld with queries := [(true, none), (true, none)] } =
      some (.ret true, { { exState with bootstraping := true } with bootstraping := false },
        { exWorld with queries := [(true, none)] }, [.poolQuery existsSQL true none]) ∧
    ∀ qs2 : List (Bool × GoError), [(true, none)] = (true, none) :: qs2 →
      ExecuteSchemaScripts exScripts
          { { exState with bootstraping := true } with bootstraping := false }
          { exWorld with queries := [(true, none)] } =
        some (.ret true, { { exState with bootstraping := true } with bootstraping := false },
          { exWorld with queries := qs2 }, [.poolQuery existsSQL true none]) :=
  ExecuteSchemaScripts_schema_exists exScripts { exState with bootstraping := true }
    { exWorld with queries := [(true, none), (true, none)] } { driverName := "pgx" }
    [(true, none)] rfl rfl

/-! ## Finalization -/

/-- C6: called with a non-nil `ConfigDb`, whatever the results of the DELETE and of the
close, `FinalizeConfigDBConnection` sends one DELETE on `timetable.active_session` with the
arguments `(os.Getpid(), ClientName)`, then closes the pool once, returns normally, and
leaves `ConfigDb` nil. -/
theorem FinalizeConfigDBConnection_completes (s : State) (w : World) (db : DB)
    (derr cerr : GoError) (xs cl : List GoError)
    (hdb : s.ConfigDb = some db) (hx : w.poolExecs = derr :: xs) (hcl : w.closes = cerr :: cl) :
    FinalizeConfigDBConnection s w =
      some (.ret (), { s with ConfigDb := none }, { w with poolExecs := xs, closes := cl },
        [.poolExec deleteSQL [.int w.pid, .str s.ClientName] derr, .poolClose cerr]) := by
  simp [FinalizeConfigDBConnection, hdb, hx, hcl]

theorem FinalizeConfigDBConnection_completes_witness :
    FinalizeConfigDBConnection exState
        { exWorld with poolExecs := [some .canceled], closes := [some (.other "closed")] } =
      some (.ret (), { exState with ConfigDb := none },
        { exWorld with poolExecs := [], closes := [] },
        [.poolExec deleteSQL [.int 200, .str "sched-A"] (some .canceled),
          .poolClose (some (.other "closed"))]) :=
  FinalizeConfigDBConnection_completes exState
    { exWorld with poolExecs := [some .canceled], closes := [some (.other "closed")] }
    { driverName := "pgx" } (some .canceled) (some (.other "closed")) [] [] rfl rfl rfl

/-! ## Cancellation during a wait -/

theorem exists_snoc_of_length {α : Type} (l : List α) (k : Nat) (h : l.length = k + 1) :
    ∃ init last, l = init ++ [last] ∧ init.length = k := by
  have hne : l ≠ [] := by
    intro h0
    rw [h0] at h
    simp at h
  refine ⟨l.dropLast, l.getLast hne, (List.dropLast_append_getLast hne).symm, ?_⟩
  rw [List.length_dropLast, h]
  rfl

theorem lockLoop_refusals_cancelled (sql : String) (k : Nat) (refs : List Reply)
    (hlen : refs.length = k + 1) (href : ∀ r ∈ refs, Refusal r) (wt : Nat) (c : Err)
    (tl : List Reply) (tw : List WaitOutcome) :
    lockLoop sql wt (refs ++ tl) (List.replicate k .timer ++ .done c :: tw) =
      some (.ret (some c), tl, tw,
        refusalEvents sql wt k ++ [.connExec sql none, .wait (waitAfter wt k) (.done c)]) := by
  obtain ⟨init, last, rfl, hk⟩ := exists_snoc_of_length refs k hlen
  subst hk
  have hinit : ∀ r ∈ init, Refusal r := fun r hr => href r (List.mem_append_left _ hr)
  have hlast : Refusal last := href last (by simp)
  rw [List.append_assoc, List.singleton_append, lockLoop_refusals sql init hinit,
    lockLoop_cancelled sql _ last hlast]

theorem reconnectLoop_failures_cancelled (k : Nat) (errs : List Err)
    (hlen : errs.length = k + 1) (c : Err) (tp : List GoError) (tw : List WaitOutcome) :
    ∃ init last, errs = init ++ [last] ∧ init.length = k ∧
      reconnectLoop (errs.map some ++ tp) (List.replicate k .timer ++ .done c :: tw) =
        some (false, tp, tw,
          failedProbeEvents WaitTime init ++ [.ping (some last), .wait WaitTime (.done c)]) := by
  obtain ⟨init, last, rfl, hk⟩ := exists_snoc_of_length errs k hlen
  subst hk
  refine ⟨init, last, rfl, rfl, ?_⟩
  rw [List.map_append, List.append_assoc, reconnectLoop_failures]
  simp [reconnectLoop]

theorem connectLoop_failures_cancelled (es : List Err) (e : Err) (wt : Nat) (c : Err)
    (tw : List WaitOutcome) (tp : List GoError) :
    connectLoop false (some e) wt (List.replicate es.length .timer ++ .done c :: tw)
        (es.map some ++ tp) =
      some (.cancelled, tw, tp,
        failedPingEvents wt es ++ [.wait (waitAfter wt es.length) (.done c)]) := by
  rw [connectLoop_failures]
  simp [connectLoop]

theorem InitAndTestConfigDBConnection_cancelled (sc : Scripts) (o : CmdOptions) (s : State)
    (w : World) (e : Err) (es : List Err) (c : Err) (prs os tp : List GoError)
    (tw : List WaitOutcome)
    (hparse : w.parses = none :: prs) (hopen : w.opens = none :: os)
    (hp : w.pings = some e :: (es.map some ++ tp))
    (hw : w.waits = List.replicate es.length .timer ++ .done c :: tw) :
    InitAndTestConfigDBConnection sc o s w =
      some (.ret false,
        { s with ClientName := o.ClientName, NoShellTasks := o.NoShellTasks,
                 VerboseLogLevel := o.Verbose, registered := some (connConfigOf o),
                 bootstraping := true },
        { w with parses := prs, opens := os, pings := tp, waits := tw },
        [.parseConfig (connstrOf o) none, .openDB "pgx" none, .ping (some e)] ++
          (failedPingEvents WaitTime es ++
            [.wait (waitAfter WaitTime es.length) (.done c)])) := by
  simp only [InitAndTestConfigDBConnection, hparse, hopen, hp, hw, Option.isSome_none,
    connectLoop_failures_cancelled]
  rfl

theorem poolCmds_append (a b : List Event) : poolCmds (a ++ b) = poolCmds a ++ poolCmds b := by
  induction a with
  | nil => rfl
  | cons x a ih => cases x <;> simp [poolCmds, ih]

theorem poolCmds_failedPingEvents (wt : Nat) (es : List Err) :
    poolCmds (failedPingEvents wt es) = [] := by
  induction es generalizing wt with
  | nil => rfl
  | cons e es ih => simp [failedPingEvents, poolCmds, ih]

theorem connCmds_failedPingEvents (wt : Nat) (es : List Err) :
    connCmds (failedPingEvents wt es) = [] := by
  induction es generalizing wt with
  | nil => rfl
  | cons e es ih => simp [failedPingEvents, connCmds, ih]

theorem getLast?_append_singleton {α : Type} (l : List α) (a : α) :
    (l ++ [a]).getLast? = some a := by
  simp

/-- C7: when the context is done during a wait, after `k + 1` failed attempts of which the
first `k` waits elapsed, every waiting loop ends there.  `TryLockClientName` returns the
non-nil `ctx.Err()` having sent the lock statement `k + 1` times and reads no further
reply; `InitAndTestConfigDBConnection` returns false having pinged `k + 1` times, sends no
statement through the pool or on a connection (the schema scripts are not run) and leaves
`ConfigDb` as it was; `ReconnectDbAndFixLeftovers` returns false having pinged `k + 1`
times and does not call `FixSchedulerCrash`.  In all three the cancelled wait is the last
event. -/
theorem cancellation_ends_waiting_loops (k : Nat) (sc : Scripts) (o : CmdOptions)
    (s : State) (w : World) (db : DB) (refs : List Reply) (errs : List Err) (c : Err)
    (tl : List Reply) (tp prs os : List GoError) (tw : List WaitOutcome)
    (hb : s.bootstraping = false) (hdb : s.ConfigDb = some db)
    (hrl : refs.length = k + 1) (href : ∀ r ∈ refs, Refusal r) (hconn : w.conn = refs ++ tl)
    (hel : errs.length = k + 1) (hp : w.pings = errs.map some ++ tp)
    (hw : w.waits = List.replicate k .timer ++ .done c :: tw)
    (hparse : w.parses = none :: prs) (hopen : w.opens = none :: os) :
    (∃ ev, TryLockClientName s w =
        some (.ret (some c), { w with conn := tl, waits := tw }, ev) ∧
      connCmds ev = List.replicate (k + 1) (lockSQL w.pid s.ClientName) ∧
      ev.getLast? = some (.wait (min (5 * 2 ^ k) 80) (.done c))) ∧
    (∃ s1 ev, InitAndTestConfigDBConnection sc o s w =
        some (.ret false, s1, { w with parses := prs, opens := os, pings := tp, waits := tw },
          ev) ∧
      s1.ConfigDb = s.ConfigDb ∧ pingCount ev = k + 1 ∧ poolCmds ev = [] ∧ connCmds ev = [] ∧
      ev.getLast? = some (.wait (min (5 * 2 ^ k) 80) (.done c))) ∧
    (∃ ev, ReconnectDbAndFixLeftovers s w =
        some (.ret false, { w with pings := tp, waits := tw }, ev) ∧
      pingCount ev = k + 1 ∧ Event.fixSchedulerCrash ∉ ev ∧
      ev.getLast? = some (.wait WaitTime (.done c))) := by
  refine ⟨?_, ?_, ?_⟩
  · refine ⟨refusalEvents (lockSQL w.pid s.ClientName) WaitTime k ++
      [.connExec (lockSQL w.pid s.ClientName) none, .wait (waitAfter WaitTime k) (.done c)],
      ?_, ?_, ?_⟩
    · simp only [TryLockClientName, hb, Bool.false_eq_true, ↓reduceIte, hconn, hw]
      rw [lockLoop_refusals_cancelled _ k refs hrl href]
    · rw [connCmds_append, connCmds_refusalEvents, List.replicate_succ']
      rfl
    · rw [← waitAfter_WaitTime k]
      simp
  · obtain ⟨e, es, rfl⟩ := List.exists_cons_of_length_eq_add_one hel
    have hk : es.length = k := by simpa using hel
    subst hk
    refine ⟨_, _, InitAndTestConfigDBConnection_cancelled sc o s w e es c prs os tp tw hparse
      hopen (by simpa using hp) hw, rfl, ?_, ?_, ?_, ?_⟩
    · rw [pingCount_append, pingCount_append, pingCount_failedPingEvents]
      simp [pingCount]
      omega
    · rw [poolCmds_append, poolCmds_append, poolCmds_failedPingEvents]
      rfl
    · rw [connCmds_append, connCmds_append, connCmds_failedPingEvents]
      rfl
    · rw [← waitAfter_WaitTime es.length, ← List.append_assoc]
      exact getLast?_append_singleton _ _
  · obtain ⟨init, last, rfl, hk, hloop⟩ := reconnectLoop_failures_cancelled k errs hel c tp tw
    refine ⟨failedProbeEvents WaitTime init ++ [.ping (some last), .wait WaitTime (.done c)],
      ?_, ?_, ?_, ?_⟩
    · simp only [ReconnectDbAndFixLeftovers, hdb, hp, hw, hloop]
    · rw [pingCount_append, pingCount_failedProbeEvents, hk]
      simp [pingCount]
    · simp [fix_not_mem_failedProbeEvents]
    · simp

theorem cancellation_ends_waiting_loops_witness :
    (∃ ev, TryLockClientName exState
        { exWorld with conn := [replyRefused, replyRefused, replyGranted],
                       pings := [some .deadlineExceeded, some .deadlineExceeded, none],
                       waits := [.timer, .done .canceled], parses := [none], opens := [none] } =
        some (.ret (some .canceled),
          { { exWorld with conn := [replyRefused, replyRefused, replyGranted],
                           pings := [some .deadlineExceeded, some .deadlineExceeded, none],
                           waits := [.timer, .done .canceled], parses := [none],
                           opens := [none] } with conn := [replyGranted], waits := [] }, ev) ∧
      connCmds ev = List.replicate (1 + 1) (lockSQL 200 "sched-A") ∧
      ev.getLast? = some (.wait (min (5 * 2 ^ 1) 80) (.done .canceled))) ∧
    (∃ s1 ev, InitAndTestConfigDBConnection exScripts exOpts exState
        { exWorld with conn := [replyRefused, replyRefused, replyGranted],
                       pings := [some .deadlineExceeded, some .deadlineExceeded, none],
                       waits := [.timer, .done .canceled], parses := [none], opens := [none] } =
        some (.ret false, s1,
          { { exWorld with conn := [replyRefused, replyRefused, replyGranted],
                           pings := [some .deadlineExceeded, some .deadlineExceeded, none],
                           waits := [.timer, .done .canceled], parses := [none],
                           opens := [none] } with
            parses := [], opens := [], pings := [none], waits := [] }, ev) ∧
      s1.ConfigDb = exState.ConfigDb ∧ pingCount ev = 1 + 1 ∧ poolCmds ev = [] ∧
      connCmds ev = [] ∧
      ev.getLast? = some (.wait (min (5 * 2 ^ 1) 80) (.done .canceled))) ∧
    (∃ ev, ReconnectDbAndFixLeftovers exState
        { exWorld with conn := [replyRefused, replyRefused, replyGranted],
                       pings := [some .deadlineExceeded, some .deadlineExceeded, none],
                       waits := [.timer, .done .canceled], parses := [none], opens := [none] } =
        some (.ret false,
          { { exWorld with conn := [replyRefused, replyRefused, replyGranted],
                           pings := [some .deadlineExceeded, some .deadlineExceeded, none],
                           waits := [.timer, .done .canceled], parses := [none],
                           opens := [none] } with pings := [none], waits := [] }, ev) ∧
      pingCount ev = 1 + 1 ∧ Event.fixSchedulerCrash ∉ ev ∧
      ev.getLast? = some (.wait WaitTime (.done .canceled))) :=
  cancellation_ends_waiting_loops 1 exScripts exOpts exState
    { exWorld with conn := [replyRefused, replyRefused, replyGranted],
                   pings := [some .deadlineExceeded, some .deadlineExceeded, none],
                   waits := [.timer, .done .canceled], parses := [none], opens := [none] }
    { driverName := "pgx" } [replyRefused, replyRefused] [.deadlineExceeded, .deadlineExceeded]
    .canceled [replyGranted] [none] [] [] []
    rfl rfl rfl (by decide) rfl rfl rfl rfl rfl rfl

/-! ## The post-connect hook -/

/-- Counterexample to C9 as stated: with `bootstraping` set, the hook sends `LISTEN sched-A` on the
connection and returns the error of that statement: it is neither silent nor always
successful. -/
theorem AfterConnect_bootstrapping_not_noop :
    ({ exState with bootstraping := true } : State).bootstraping = true ∧
    AfterConnect { exState with bootstraping := true } { exWorld with conn := [replyFailed] } =
      some (.ret (some (.other "syntax error")), exWorld,
        [.connExec "LISTEN sched-A" (some (.other "syntax error"))]) ∧
    ¬ ∃ w1, AfterConnect { exState with bootstraping := true }
        { exWorld with conn := [replyFailed] } = some (.ret none, w1, []) := by
  have heval : AfterConnect { exState with bootstraping := true }
      { exWorld with conn := [replyFailed] } =
      some (.ret (some (.other "syntax error")), exWorld,
        [.connExec "LISTEN sched-A" (some (.other "syntax error"))]) := by decide
  refine ⟨rfl, heval, ?_⟩
  rintro ⟨w1, h⟩
  rw [heval] at h
  simp at h

/-- C9, amended: with `bootstraping` set, `TryLockClientName` does nothing and returns
nil, and the hook installed by `InitAndTestConfigDBConnection` sends exactly one statement
on the connection, `LISTEN` followed by the client name, and returns the result of that
statement; the lock statement is not sent. -/
theorem AfterConnect_while_bootstrapping (s : State) (w : World) (r : Reply)
    (rs : List Reply) (hb : s.bootstraping = true) (hconn : w.conn = r :: rs) :
    TryLockClientName s w = some (.ret none, w, []) ∧
    AfterConnect s w =
      some (.ret r.err, { w with conn := rs },
        [.connExec (listenSQL s.ClientName) r.err]) := by
  have h1 : TryLockClientName s w = some (.ret none, w, []) := by
    simp [TryLockClientName, hb]
  refine ⟨h1, ?_⟩
  simp [AfterConnect, h1, hconn]

theorem AfterConnect_while_bootstrapping_witness :
    TryLockClientName { exState with bootstraping := true }
        { exWorld with conn := [replyOk] } =
      some (.ret none, { exWorld with conn := [replyOk] }, []) ∧
    AfterConnect { exState with bootstraping := true } { exWorld with conn := [replyOk] } =
      some (.ret replyOk.err, { { exWorld with conn := [replyOk] } with conn := [] },
        [.connExec (listenSQL "sched-A") replyOk.err]) :=
  AfterConnect_while_bootstrapping { exState with bootstraping := true }
    { exWorld with conn := [replyOk] } replyOk [] rfl rfl

/-! ## Reconnection -/

/-- Counterexample to C10 as stated: after two failed probes `ReconnectDbAndFixLeftovers` has
waited 5 and 5 seconds, not 5 and 10. -/
theorem ReconnectDbAndFixLeftovers_second_wait_not_doubled :
    ∃ w1 ev, ReconnectDbAndFixLeftovers exState
        { exWorld with pings := [some .deadlineExceeded, some .deadlineExceeded, none],
                       waits := [.timer, .timer] } = some (.ret true, w1, ev) ∧
      waitSecs ev = [5, 5] ∧
      waitSecs ev ≠ (List.range 2).map (fun n => min (5 * 2 ^ n) 80) := by
  refine ⟨exWorld, [.ping (some .deadlineExceeded), .wait 5 .timer,
    .ping (some .deadlineExceeded), .wait 5 .timer, .ping none, .fixSchedulerCrash],
    by decide, by decide, by decide⟩

/-- C10, amended: in `ReconnectDbAndFixLeftovers` the wait after every failed probe is
`WaitTime` = 5 seconds, whatever the number of failed probes; after `k` failed probes and a
successful one the function has pinged `k + 1` times, calls `FixSchedulerCrash` once, last,
and returns true. -/
theorem ReconnectDbAndFixLeftovers_constant_wait (s : State) (w : World) (db : DB)
    (errs : List Err) (tp : List GoError) (tw : List WaitOutcome)
    (hdb : s.ConfigDb = some db) (hp : w.pings = errs.map some ++ none :: tp)
    (hw : w.waits = List.replicate errs.length .timer ++ tw) :
    ∃ ev, ReconnectDbAndFixLeftovers s w =
        some (.ret true, { w with pings := tp, waits := tw }, ev) ∧
      waitSecs ev = List.replicate errs.length WaitTime ∧ WaitTime = 5 ∧
      pingCount ev = errs.length + 1 ∧
      ev.getLast? = some .fixSchedulerCrash := by
  refine ⟨(failedProbeEvents WaitTime errs ++ [.ping none]) ++ [.fixSchedulerCrash],
    ?_, ?_, rfl, ?_, ?_⟩
  · simp only [ReconnectDbAndFixLeftovers, hdb, hp, hw, reconnectLoop_failures, reconnectLoop]
  · rw [waitSecs_append, waitSecs_append, waitSecs_failedProbeEvents]
    simp [waitSecs]
  · rw [pingCount_append, pingCount_append, pingCount_failedProbeEvents]
    simp [pingCount]
  · exact getLast?_append_singleton _ _

theorem ReconnectDbAndFixLeftovers_constant_wait_witness :
    ∃ ev, ReconnectDbAndFixLeftovers exState
        { exWorld with pings := [some .deadlineExceeded, some .deadlineExceeded, none],
                       waits := [.timer, .timer] } =
        some (.ret true,
          { { exWorld with pings := [some .deadlineExceeded, some .deadlineExceeded, none],
                           waits := [.timer, .timer] } with pings := [], waits := [] }, ev) ∧
      waitSecs ev = List.replicate [Err.deadlineExceeded, Err.deadlineExceeded].length WaitTime ∧
      WaitTime = 5 ∧
      pingCount ev = [Err.deadlineExceeded, Err.deadlineExceeded].length + 1 ∧
      ev.getLast? = some .fixSchedulerCrash :=
  ReconnectDbAndFixLeftovers_constant_wait exState
    { exWorld with pings := [some .deadlineExceeded, some .deadlineExceeded, none],
                   waits := [.timer, .timer] }
    { driverName := "pgx" } [.deadlineExceeded, .deadlineExceeded] [] [] rfl rfl rfl

/-! ## The locking procedure: mutual exclusion -/

theorem eq_of_mem_of_length_le_one {α : Type} (l : List α) (h : l.length ≤ 1) (a b : α)
    (ha : a ∈ l) (hb : b ∈ l) : a = b := by
  match l, h with
  | [], _ => simp at ha
  | [x], _ =>
    simp only [List.mem_singleton] at ha hb
    rw [ha, hb]
  | _ :: _ :: _, h => simp at h

theorem atMostOne_of_sublist (db : SessionDb) (l : List ActiveSessionRecord)
    (hsub : l.Sublist db.active_session) (h : AtMostOne db) (dead : List Nat) :
    AtMostOne { active_session := l, deadConns := dead } := by
  intro name
  exact le_trans (hsub.filter _).length_le (h name)

theorem try_lock_false_iff (d : SessionDb) (conn p : Nat) (name : String) :
    (try_lock_client_name d conn p name).2 = false ↔ ∃ q, q ≠ p ∧ holds d q name := by
  unfold try_lock_client_name
  by_cases hany : (d.active_session.filter (fun r => !d.stale r)).any
      (fun r => decide (r.clientName = name ∧ r.processID ≠ p)) = true
  · simp only [hany, ↓reduceIte, true_iff]
    obtain ⟨r, hr, hp⟩ := List.any_eq_true.mp hany
    simp only [List.mem_filter, Bool.not_eq_true', decide_eq_true_eq] at hr hp
    exact ⟨r.processID, hp.2, r, hr.1, hp.1, rfl, hr.2⟩
  · simp only [hany, Bool.false_eq_true, ↓reduceIte]
    constructor
    · intro h
      exact absurd h (by decide)
    rintro ⟨q, hq, r, hr, hn, hpid, hlive⟩
    exfalso
    apply hany
    rw [List.any_eq_true]
    refine ⟨r, ?_, ?_⟩
    · simp [List.mem_filter, hr, hlive]
    · simp [hn, hpid, hq]

theorem try_lock_refused_state (d : SessionDb) (conn p : Nat) (name : String)
    (h : (try_lock_client_name d conn p name).2 = false) :
    (try_lock_client_name d conn p name).1 =
      { d with active_session := d.active_session.filter (fun r => !d.stale r) } := by
  unfold try_lock_client_name at h ⊢
  by_cases hany : (d.active_session.filter (fun r => !d.stale r)).any
      (fun r => decide (r.clientName = name ∧ r.processID ≠ p)) = true
  · simp only [hany, ↓reduceIte]
  · simp only [hany, Bool.false_eq_true, ↓reduceIte] at h
    exact absurd h (by decide)

theorem try_lock_granted_state (d : SessionDb) (conn p : Nat) (name : String)
    (h : (try_lock_client_name d conn p name).2 = true) :
    (try_lock_client_name d conn p name).1 =
      { active_session :=
          List.filter (fun r => decide (r.clientName ≠ name))
              (List.filter (fun r => !d.stale r) d.active_session) ++
            [{ clientName := name, processID := p, serverConnectionID := conn }],
        deadConns := d.deadConns } := by
  unfold try_lock_client_name at h ⊢
  by_cases hany : (d.active_session.filter (fun r => !d.stale r)).any
      (fun r => decide (r.clientName = name ∧ r.processID ≠ p)) = true
  · simp only [hany, ↓reduceIte] at h
    exact absurd h (by decide)
  · simp only [hany, Bool.false_eq_true, ↓reduceIte]

theorem try_lock_atMostOne (d : SessionDb) (conn p : Nat) (name : String) (h : AtMostOne d) :
    AtMostOne (try_lock_client_name d conn p name).1 := by
  unfold try_lock_client_name
  by_cases hany : (d.active_session.filter (fun r => !d.stale r)).any
      (fun r => decide (r.clientName = name ∧ r.processID ≠ p)) = true
  · simp only [hany, ↓reduceIte]
    exact atMostOne_of_sublist d _ (List.filter_sublist _) h _
  · simp only [hany, Bool.false_eq_true, ↓reduceIte]
    intro n
    simp only [List.filter_append]
    by_cases hn : name = n
    · subst hn
      have hnil : List.filter (fun r => decide (r.clientName = name))
          (List.filter (fun r => decide (r.clientName ≠ name))
            (List.filter (fun r => !d.stale r) d.active_session)) = [] := by
        rw [List.filter_eq_nil_iff]
        intro r hr
        simp only [List.mem_filter, decide_eq_true_eq] at hr
        simpa using hr.2
      rw [hnil]
      simp
    · have hnew : List.filter (fun r => decide (r.clientName = n))
          [({ clientName := name, processID := p, serverConnectionID := conn } :
            ActiveSessionRecord)] = [] := by
        simp [hn]
      rw [hnew, List.append_nil]
      have hsub : (List.filter (fun r => decide (r.clientName ≠ name))
          (List.filter (fun r => !d.stale r) d.active_session)).Sublist d.active_session :=
        (List.filter_sublist _).trans (List.filter_sublist _)
      exact le_trans (hsub.filter _).length_le (h n)

theorem stepDb_atMostOne (d : SessionDb) (a : Action) (h : AtMostOne d) :
    AtMostOne (stepDb d a).1 := by
  cases a with
  | lock conn pid name => exact try_lock_atMostOne d conn pid name h
  | finalize pid name => exact atMostOne_of_sublist d _ (List.filter_sublist _) h _
  | connLost conn => exact h

theorem runDb_atMostOne (acts : List Action) (d : SessionDb) (h : AtMostOne d) :
    AtMostOne (runDb d acts) := by
  induction acts generalizing d with
  | nil => exact h
  | cons a acts ih => exact ih _ (stepDb_atMostOne d a h)

theorem emptyDb_atMostOne : AtMostOne emptyDb := by
  intro name
  simp [emptyDb]

theorem record_eq_of_atMostOne (d : SessionDb) (h : AtMostOne d) (r1 r2 : ActiveSessionRecord)
    (h1 : r1 ∈ d.active_session) (h2 : r2 ∈ d.active_session)
    (hn : r1.clientName = r2.clientName) : r1 = r2 := by
  apply eq_of_mem_of_length_le_one _ (h r1.clientName)
  · simp [List.mem_filter, h1]
  · simp [List.mem_filter, h2, hn]

theorem holds_unique (d : SessionDb) (h : AtMostOne d) (p q : Nat) (name : String)
    (hp : holds d p name) (hq : holds d q name) : p = q := by
  obtain ⟨r1, hr1, hn1, hp1, _⟩ := hp
  obtain ⟨r2, hr2, hn2, hp2, _⟩ := hq
  have := record_eq_of_atMostOne d h r1 r2 hr1 hr2 (by rw [hn1, hn2])
  rw [← hp1, ← hp2, this]

/-- C8: after any sequence of atomic steps (lock calls of any processes over any
connections, finalizations, connection losses) starting from the empty session table, if
process `p1` holds `name` then no other process `p2` holds it; every lock call of `p2`
under `name` is refused and leaves `p1` holding; once `p1` has finalized, or the connection
of its record is no longer alive, the next lock call of `p2` is granted.  In any database
state a lock call is refused exactly when another process holds the name, and a granted
call over a live connection makes the caller the holder. -/
theorem lock_mutual_exclusion (acts : List Action) (name : String) (p1 p2 : Nat)
    (h1 : holds (runDb emptyDb acts) p1 name) (hne : p2 ≠ p1) :
    ¬ holds (runDb emptyDb acts) p2 name ∧
    (∀ conn, (try_lock_client_name (runDb emptyDb acts) conn p2 name).2 = false ∧
      holds (try_lock_client_name (runDb emptyDb acts) conn p2 name).1 p1 name) ∧
    (∀ conn,
      (try_lock_client_name (deleteSession (runDb emptyDb acts) p1 name) conn p2 name).2
        = true) ∧
    (∀ c conn, ({ clientName := name, processID := p1, serverConnectionID := c } :
        ActiveSessionRecord) ∈ (runDb emptyDb acts).active_session →
      (try_lock_client_name (stepDb (runDb emptyDb acts) (.connLost c)).1 conn p2 name).2
        = true) ∧
    (∀ d conn p, (try_lock_client_name d conn p name).2 = false ↔
      ∃ q, q ≠ p ∧ holds d q name) ∧
    (∀ d conn p, (try_lock_client_name d conn p name).2 = true → conn ∉ d.deadConns →
      holds (try_lock_client_name d conn p name).1 p name) := by
  have hinv : AtMostOne (runDb emptyDb acts) := runDb_atMostOne acts emptyDb emptyDb_atMostOne
  generalize runDb emptyDb acts = db at h1 hinv
  refine ⟨?_, ?_, ?_, ?_, ?_, ?_⟩
  · intro h2
    exact hne (holds_unique db hinv p2 p1 name h2 h1)
  · intro conn
    have hfalse : (try_lock_client_name db conn p2 name).2 = false :=
      (try_lock_false_iff db conn p2 name).mpr ⟨p1, hne.symm, h1⟩
    refine ⟨hfalse, ?_⟩
    rw [try_lock_refused_state db conn p2 name hfalse]
    obtain ⟨r, hr, hn, hp, hlive⟩ := h1
    exact ⟨r, by simp [List.mem_filter, hr, hlive], hn, hp, hlive⟩
  · intro conn
    cases hres : (try_lock_client_name (deleteSession db p1 name) conn p2 name).2 with
    | true => rfl
    | false =>
      exfalso
      obtain ⟨q, hq, r, hr, hn, hp, hlive⟩ :=
        (try_lock_false_iff (deleteSession db p1 name) conn p2 name).mp hres
      simp only [deleteSession, List.mem_filter, Bool.not_eq_true', decide_eq_false_iff_not,
        not_and] at hr
      have hq1 : q = p1 := holds_unique db hinv q p1 name ⟨r, hr.1, hn, hp, hlive⟩ h1
      exact hr.2 (by rw [hp, hq1]) hn
  · intro c conn hmem
    cases hres : (try_lock_client_name (stepDb db (.connLost c)).1 conn p2 name).2 with
    | true => rfl
    | false =>
      exfalso
      obtain ⟨q, hq, r, hr, hn, hp, hlive⟩ :=
        (try_lock_false_iff (stepDb db (.connLost c)).1 conn p2 name).mp hres
      have hr0 : r ∈ db.active_session := hr
      have heq := record_eq_of_atMostOne db hinv r _ hr0 hmem hn
      subst heq
      simp [stepDb, SessionDb.stale] at hlive
  · intro d conn p
    exact try_lock_false_iff d conn p name
  · intro d conn p hgrant hlive
    rw [try_lock_granted_state d conn p name hgrant]
    exact ⟨{ clientName := name, processID := p, serverConnectionID := conn }, by simp,
      rfl, rfl, by simp [SessionDb.stale, hlive]⟩

theorem lock_mutual_exclusion_witness :
    ¬ holds (runDb emptyDb exActs) 200 "sched-A" ∧
    (∀ conn, (try_lock_client_name (runDb emptyDb exActs) conn 200 "sched-A").2 = false ∧
      holds (try_lock_client_name (runDb emptyDb exActs) conn 200 "sched-A").1 100 "sched-A") ∧
    (∀ conn,
      (try_lock_client_name (deleteSession (runDb emptyDb exActs) 100 "sched-A") conn 200
        "sched-A").2 = true) ∧
    (∀ c conn, ({ clientName := "sched-A", processID := 100, serverConnectionID := c } :
        ActiveSessionRecord) ∈ (runDb emptyDb exActs).active_session →
      (try_lock_client_name (stepDb (runDb emptyDb exActs) (.connLost c)).1 conn 200
        "sched-A").2 = true) ∧
    (∀ d conn p, (try_lock_client_name d conn p "sched-A").2 = false ↔
      ∃ q, q ≠ p ∧ holds d q "sched-A") ∧
    (∀ d conn p, (try_lock_client_name d conn p "sched-A").2 = true → conn ∉ d.deadConns →
      holds (try_lock_client_name d conn p "sched-A").1 p "sched-A") :=
  lock_mutual_exclusion exActs "sched-A" 100 200
    ⟨{ clientName := "sched-A", processID := 100, serverConnectionID := 1 }, by decide, rfl, rfl,
      by decide⟩
    (by decide)

end Pgengine
